import Mathlib

/-!
Verification of the Lapa Order Matching & Lifecycle Engine specification
against the repository sources.

The repository snapshot contains the frontend (Next.js app, in particular
the API client and walker dashboard in `frontend/app/walker/page.tsx`),
the per-service READMEs, and the database schema documentation
(`unnamed/part_011`, the PostgreSQL table/enum inventory).  The
order-service backend modules (`order_service`, `pricing_service`,
`matching_service`) are referenced by the READMEs but their code is not
part of the snapshot; where a claim depends on them, the component is
modelled from the specification text, and each such definition says so
in its doc comment.
-/

/-! ## Database schema enums (source: unnamed/part_011) -/

/-- The `orderstatus` PostgreSQL enum as declared in the schema
inventory, `unnamed/part_011` line 377:
`orderstatus: PENDING, CONFIRMED, IN_PROGRESS, COMPLETED, CANCELLED, NO_WALKER`. -/
def orderstatusValues : List String :=
  ["PENDING", "CONFIRMED", "IN_PROGRESS", "COMPLETED", "CANCELLED", "NO_WALKER"]

/-- The `ordertype` PostgreSQL enum as declared in `unnamed/part_011`
line 378: `ordertype: SINGLE_WALK, REGULAR_WALK, PET_SITTING, PET_BOARDING`. -/
def ordertypeValues : List String :=
  ["SINGLE_WALK", "REGULAR_WALK", "PET_SITTING", "PET_BOARDING"]

/-- The seven status values that §3 of the spec declares for an order:
`PENDING, OFFERED, CONFIRMED, IN_PROGRESS, COMPLETED, CANCELLED, NO_WALKER`. -/
def specStatusValues : List String :=
  ["PENDING", "OFFERED", "CONFIRMED", "IN_PROGRESS", "COMPLETED", "CANCELLED", "NO_WALKER"]

/-- The order status type actually declared by the database schema
(`orderstatus` enum, unnamed/part_011 line 377): six values, no OFFERED. -/
inductive DbOrderStatus where
  | pending
  | confirmed
  | inProgress
  | completed
  | cancelled
  | noWalker
deriving DecidableEq, Repr, Fintype

/-- The string spelled by each `orderstatus` enum member in the schema. -/
def DbOrderStatus.toEnumString : DbOrderStatus → String
  | .pending => "PENDING"
  | .confirmed => "CONFIRMED"
  | .inProgress => "IN_PROGRESS"
  | .completed => "COMPLETED"
  | .cancelled => "CANCELLED"
  | .noWalker => "NO_WALKER"

/-! ## Spec-level order status

Modelled from the spec: §3 declares seven status values; the backend
Lifecycle Controller and Order Store that operate on them are not in
the repository snapshot, so the spec-side components below use this
seven-value type. -/

/-- Modelled from the spec: the §3 status set of an order, including the
OFFERED state that the spec describes between matching and confirmation. -/
inductive Status where
  | PENDING
  | OFFERED
  | CONFIRMED
  | IN_PROGRESS
  | COMPLETED
  | CANCELLED
  | NO_WALKER
deriving DecidableEq, Repr, Fintype

/-- Terminal states per the spec glossary: COMPLETED, CANCELLED, NO_WALKER. -/
def Status.isTerminal : Status → Bool
  | .COMPLETED => true
  | .CANCELLED => true
  | .NO_WALKER => true
  | _ => false

/-! ## Pricing Calculator

Modelled from the spec: §4.2 `computePrice(orderType, durationMinutes,
walkerHourlyRate, demandMultiplier) → {baseAmount, commission,
walkerEarnings, total}`; the order-service `pricing_service` module is
not in the repository snapshot.  Money is modelled as rationals with
2-decimal currency rounding applied once at the end. -/

/-- Order type, from the `ordertype` database enum (unnamed/part_011
line 378), the closed tagged variant §9 prescribes for pricing dispatch. -/
inductive OrderType where
  | singleWalk
  | regularWalk
  | petSitting
  | petBoarding
deriving DecidableEq, Repr

/-- Modelled from the spec: the per-order-type pricing dispatch table of
§9.  The spec gives no numeric factors; representative constants are
used (the claims proved below do not depend on their values). -/
def typeFactor : OrderType → ℚ
  | .singleWalk => 1
  | .regularWalk => 9 / 10
  | .petSitting => 3 / 2
  | .petBoarding => 2

/-- Modelled from the spec: the fixed platform commission percentage of
§4.2; 20% is the rate consistent with the §8 example (commission 80 on a
base of 400). -/
def commissionPct : ℚ := 1 / 5

/-- Currency-precision rounding: round to 2 decimal places. -/
def round2 (q : ℚ) : ℚ := (round (q * 100) : ℤ) / 100

/-- The price breakdown returned by the Pricing Calculator (§4.2). -/
structure PriceBreakdown where
  baseAmount : ℚ
  commission : ℚ
  walkerEarnings : ℚ
  total : ℚ
deriving DecidableEq, Repr

/-- Modelled from the spec: §4.2 Pricing Calculator.  Pure function of
its four inputs; base amount from the hourly rate, duration and type
dispatch table; commission a fixed percentage of the total;
`walkerEarnings = total - commission`; 2-decimal rounding applied once
at the end, never on intermediate values. -/
def computePrice (ot : OrderType) (durationMinutes : ℚ)
    (walkerHourlyRate : ℚ) (demandMultiplier : ℚ) : PriceBreakdown :=
  let base : ℚ := walkerHourlyRate * durationMinutes / 60 * typeFactor ot
  let total : ℚ := round2 (base * demandMultiplier)
  let commission : ℚ := round2 (commissionPct * total)
  { baseAmount := round2 base
    commission := commission
    walkerEarnings := total - commission
    total := total }

/-- The price breakdown that the §8 happy-path scenario of the spec
lists verbatim: "base 400, commission 80, earnings 320, total 480". -/
def specHappyPathBreakdown : PriceBreakdown :=
  { baseAmount := 400, commission := 80, walkerEarnings := 320, total := 480 }

/-! ## Order Store

Modelled from the spec: §4.3 Order Store contract — `create`, `getById`,
`appendStatusTransition(orderId, expectedCurrentStatus, newStatus,
actor, reason) → success|conflict`.  The order-service backend is not in
the repository snapshot.  The store is a finite map from order id to an
order row holding the current status and the append-only history log
of (status, actor, timestamp, reason) entries; the transition call is a
compare-and-swap on status, and a successful call updates the status and
appends the history entry in the same single state update. -/

/-- A status-history entry: (status, actor, timestamp, reason), per §3. -/
structure HistoryEntry where
  status : Status
  actor : String
  timestamp : Nat
  reason : Option String
deriving DecidableEq, Repr

/-- An order row in the Order Store: current status plus the append-only
history log.  (The other §3 fields do not participate in the CAS.) -/
structure OrderRec where
  status : Status
  history : List HistoryEntry
deriving DecidableEq, Repr

/-- Result of `appendStatusTransition`: success, the `StaleTransition`
conflict, or not-found for an unknown order id. -/
inductive TxResult where
  | success
  | staleTransition
  | notFound
deriving DecidableEq, Repr

/-- The Order Store state: an association list from order id to row. -/
def Store : Type := List (String × OrderRec)

/-- Modelled from the spec: §4.3 `getById`. -/
def getById (s : Store) (orderId : String) : Option OrderRec :=
  (List.find? (fun p => p.1 = orderId) s).map (fun p => p.2)

/-- Replace the row stored under `orderId` (helper of the CAS write). -/
def setById (s : Store) (orderId : String) (o : OrderRec) : Store :=
  List.map (fun p => if p.1 = orderId then (p.1, o) else p) s

/-- Modelled from the spec: §4.3 `appendStatusTransition(orderId,
expectedCurrentStatus, newStatus, actor, reason)`.  A compare-and-swap
on status: it succeeds only if the stored status equals
`expectedCurrentStatus`, otherwise it fails with a `StaleTransition`
conflict and changes nothing; on success the status update and the
appended history entry are one atomic state update. -/
def appendStatusTransition (s : Store) (orderId : String)
    (expectedCurrentStatus newStatus : Status) (actor : String)
    (timestamp : Nat) (reason : Option String) : Store × TxResult :=
  match getById s orderId with
  | none => (s, .notFound)
  | some o =>
    if o.status = expectedCurrentStatus then
      (setById s orderId
        { status := newStatus
          history := o.history ++ [⟨newStatus, actor, timestamp, reason⟩] },
       .success)
    else (s, .staleTransition)

/-- One confirm attempt by a walker on one order, as issued concurrently
in the §8 CAS-correctness scenario: expected status OFFERED, new status
CONFIRMED.  The Order Store totally orders the concurrent attempts (§5),
so an interleaving is a sequence of CAS calls. -/
def confirmAttempt (s : Store) (orderId : String) (walker : String)
    (timestamp : Nat) : Store × TxResult :=
  appendStatusTransition s orderId .OFFERED .CONFIRMED walker timestamp none

/-- Run a sequence of confirm attempts (walker, timestamp) against one
order, returning the final store and each attempt's result. -/
def runConfirmAttempts (s : Store) (orderId : String) :
    List (String × Nat) → Store × List TxResult
  | [] => (s, [])
  | (w, t) :: rest =>
    let (s', r) := confirmAttempt s orderId w t
    let (s'', rs) := runConfirmAttempts s' orderId rest
    (s'', r :: rs)

/-! ## Lifecycle Controller — state machine

Modelled from the spec: the §4.4 state table.  The Lifecycle Controller
module of the order-service backend is not in the repository snapshot. -/

/-- The events of the §4.4 state table. -/
inductive Event where
  | matchFound
  | matchExhausted
  | walkerAccepts
  | offerExpires
  | walkerStarts
  | walkerCompletes
  | cancel
deriving DecidableEq, Repr, Fintype

/-- Modelled from the spec: the §4.4 transition table, row by row.
`none` means the table has no row for this (state, event) pair. -/
def lifecycleStep : Status → Event → Option Status
  | .PENDING, .matchFound => some .OFFERED
  | .PENDING, .matchExhausted => some .NO_WALKER
  | .OFFERED, .matchExhausted => some .NO_WALKER
  | .OFFERED, .walkerAccepts => some .CONFIRMED
  | .OFFERED, .offerExpires => some .PENDING
  | .CONFIRMED, .walkerStarts => some .IN_PROGRESS
  | .IN_PROGRESS, .walkerCompletes => some .COMPLETED
  | .PENDING, .cancel => some .CANCELLED
  | .OFFERED, .cancel => some .CANCELLED
  | .CONFIRMED, .cancel => some .CANCELLED
  | _, _ => none

/-- Run a sequence of events through the §4.4 table; the run is defined
only while every step has a table row. -/
def runEvents : Status → List Event → Option Status
  | s, [] => some s
  | s, e :: rest =>
    match lifecycleStep s e with
    | some s' => runEvents s' rest
    | none => none

/-- The (from, to) status pairs the §4.4 table allows, forgetting the
event (helper for the controller's transition validation). -/
def validTransition (src dst : Status) : Bool :=
  decide (∃ e, lifecycleStep src e = some dst)

/-- Result of a controller-level transition request: the current order
snapshot on success, or a conflict. -/
inductive HandleResult where
  | ok (snapshot : OrderRec)
  | conflict
deriving DecidableEq, Repr

/-- Modelled from the spec: §4.4 controller handling of one transition
request (order, target status, actor).  A re-entrant request — the same
actor requesting the same already-applied transition, i.e. the order is
already in the target status and the last history entry records that
same actor and status — is a no-op returning the current state.  Any
other request is applied through the Order Store CAS semantics: valid
per the §4.4 table, append one history entry and set the status in one
update; otherwise a conflict. -/
def handleTransition (o : OrderRec) (target : Status) (actor : String)
    (timestamp : Nat) (reason : Option String) : OrderRec × HandleResult :=
  let reentrant : Bool :=
    match o.history.getLast? with
    | some e => o.status = target && e.status = target && e.actor = actor
    | none => false
  if reentrant then (o, .ok o)
  else if validTransition o.status target then
    let o' : OrderRec :=
      { status := target
        history := o.history ++ [⟨target, actor, timestamp, reason⟩] }
    (o', .ok o')
  else (o, .conflict)

/-! ## Lifecycle timestamps

Modelled from the spec: §3 order timestamps — created, confirmed,
started, completed, cancelled, each set at most once by the Lifecycle
Controller when the corresponding transition is applied (the schema in
unnamed/part_011 line 194 has the matching columns `created_at`,
`confirmed_at`, `actual_start_time`, `completed_at`, `cancelled_at`). -/

/-- The per-order lifecycle timestamps of §3; `created` is set at
creation, the rest when the corresponding status is entered. -/
structure Timestamps where
  created : Nat
  confirmedAt : Option Nat
  startedAt : Option Nat
  completedAt : Option Nat
  cancelledAt : Option Nat
deriving DecidableEq, Repr

/-- An order's lifecycle view: current status and timestamps. -/
structure OrderState where
  status : Status
  ts : Timestamps
deriving DecidableEq, Repr

/-- A freshly created order (§4.4: none → PENDING on creation), with
`created` set to the creation time and no other timestamp set. -/
def freshOrder (t0 : Nat) : OrderState :=
  { status := .PENDING
    ts := { created := t0, confirmedAt := none, startedAt := none
            completedAt := none, cancelledAt := none } }

/-- Modelled from the spec: applying one §4.4 event at time `t` to an
order.  A step with no table row leaves the order unchanged (the CAS
guard rejects it); a step entering CONFIRMED / IN_PROGRESS / COMPLETED /
CANCELLED records its timestamp. -/
def applyEvent (o : OrderState) (e : Event) (t : Nat) : OrderState :=
  match lifecycleStep o.status e with
  | none => o
  | some s' =>
    { status := s'
      ts :=
        match s' with
        | .CONFIRMED => { o.ts with confirmedAt := some t }
        | .IN_PROGRESS => { o.ts with startedAt := some t }
        | .COMPLETED => { o.ts with completedAt := some t }
        | .CANCELLED => { o.ts with cancelledAt := some t }
        | _ => o.ts }

/-- Run a list of timestamped events through `applyEvent`. -/
def runOrder (o : OrderState) : List (Event × Nat) → OrderState
  | [] => o
  | (e, t) :: rest => runOrder (applyEvent o e t) rest

/-- Event times are nondecreasing and bounded below by `lb` (the
timestamps come from a monotone clock, §3). -/
def timesChain (lb : Nat) : List (Event × Nat) → Prop
  | [] => True
  | (_, t) :: rest => lb ≤ t ∧ timesChain t rest

/-- The clock reading after a run of timestamped events: the last event
time, or the starting bound for an empty run. -/
def lastLB (lb : Nat) : List (Event × Nat) → Nat
  | [] => lb
  | (_, t) :: rest => lastLB t rest

/-- The §3 ordering invariant: `completed_at ≥ started_at ≥
confirmed_at ≥ created_at` whenever set. -/
def tsOrdered (ts : Timestamps) : Prop :=
  (∀ tc, ts.confirmedAt = some tc → ts.created ≤ tc) ∧
  (∀ tst, ts.startedAt = some tst → ts.created ≤ tst) ∧
  (∀ tcp, ts.completedAt = some tcp → ts.created ≤ tcp) ∧
  (∀ tc tst, ts.confirmedAt = some tc → ts.startedAt = some tst → tc ≤ tst) ∧
  (∀ tc tcp, ts.confirmedAt = some tc → ts.completedAt = some tcp → tc ≤ tcp) ∧
  (∀ tst tcp, ts.startedAt = some tst → ts.completedAt = some tcp → tst ≤ tcp)

/-- Which timestamps a status implies are set / unset; ties the state
machine to the timestamp fields so that each field is written at most
once (a field is only written when entering a status that cannot be
entered while the field is already set). -/
def statusTs (o : OrderState) : Prop :=
  match o.status with
  | .PENDING => o.ts.confirmedAt = none ∧ o.ts.startedAt = none ∧
      o.ts.completedAt = none ∧ o.ts.cancelledAt = none
  | .OFFERED => o.ts.confirmedAt = none ∧ o.ts.startedAt = none ∧
      o.ts.completedAt = none ∧ o.ts.cancelledAt = none
  | .NO_WALKER => o.ts.confirmedAt = none ∧ o.ts.startedAt = none ∧
      o.ts.completedAt = none ∧ o.ts.cancelledAt = none
  | .CONFIRMED => o.ts.confirmedAt.isSome ∧ o.ts.startedAt = none ∧
      o.ts.completedAt = none ∧ o.ts.cancelledAt = none
  | .IN_PROGRESS => o.ts.confirmedAt.isSome ∧ o.ts.startedAt.isSome ∧
      o.ts.completedAt = none ∧ o.ts.cancelledAt = none
  | .COMPLETED => o.ts.confirmedAt.isSome ∧ o.ts.startedAt.isSome ∧
      o.ts.completedAt.isSome ∧ o.ts.cancelledAt = none
  | .CANCELLED => o.ts.cancelledAt.isSome

/-- Every set timestamp is at most `lb` (all writes so far happened at
or before the current clock reading). -/
def tsBounded (ts : Timestamps) (lb : Nat) : Prop :=
  ts.created ≤ lb ∧
  (∀ t, ts.confirmedAt = some t → t ≤ lb) ∧
  (∀ t, ts.startedAt = some t → t ≤ lb) ∧
  (∀ t, ts.completedAt = some t → t ≤ lb) ∧
  (∀ t, ts.cancelledAt = some t → t ≤ lb)

/-- The inductive invariant carried along a run: status/timestamp
correlation, the §3 ordering, and the clock bound. -/
def OrderInv (o : OrderState) (lb : Nat) : Prop :=
  statusTs o ∧ tsOrdered o.ts ∧ tsBounded o.ts lb

/-! ## Matching Engine retries

Modelled from the spec: §4.4 matching retry policy — a bounded number of
rounds (3), each widening the search radius (§4.1: "e.g., double it");
if exhausted, the order moves to NO_WALKER with no price computed and no
payment invoked.  The order-service `matching_service` module is not in
the repository snapshot. -/

/-- Number of matching retry rounds (§4.4: "bounded number of rounds
(e.g., 3)"). -/
def maxMatchingRounds : Nat := 3

/-- Radius widening between rounds (§4.1: "progressively widening the
search radius (e.g., double it)"). -/
def widenRadius (r : Nat) : Nat := 2 * r

/-- The radii tried over `n` rounds starting from `r0`. -/
def roundRadii (r0 : Nat) : Nat → List Nat
  | 0 => []
  | n + 1 => r0 :: roundRadii (widenRadius r0) n

/-- The outcome of running matching for one order: final status, the
price (computed only when an offer is made), the payment invocations,
and how many rounds ran. -/
structure MatchOutcome where
  finalStatus : Status
  price : Option PriceBreakdown
  payments : List String
  roundsUsed : Nat
deriving DecidableEq, Repr

/-- Modelled from the spec: the bounded matching loop.  `candidatesAt r`
is the Geo Index answer at radius `r` (walker ids, nearest first);
`offerPrice` is the §4.2 price used if an offer is made.  Each round
queries at the current radius; a nonempty answer moves the order to
OFFERED with the price computed; an empty one widens the radius and
retries; an exhausted budget moves the order to NO_WALKER with no price
and no payment. -/
def matchingRounds (candidatesAt : Nat → List String)
    (offerPrice : PriceBreakdown) : Nat → Nat → Nat → MatchOutcome
  | 0, _, used => ⟨.NO_WALKER, none, [], used⟩
  | n + 1, r, used =>
    match candidatesAt r with
    | [] => matchingRounds candidatesAt offerPrice n (widenRadius r) (used + 1)
    | _ :: _ => ⟨.OFFERED, some offerPrice, [], used + 1⟩

/-- Run matching for a new order with initial radius `r0`. -/
def runMatching (candidatesAt : Nat → List String)
    (offerPrice : PriceBreakdown) (r0 : Nat) : MatchOutcome :=
  matchingRounds candidatesAt offerPrice maxMatchingRounds r0 0

/-! ## Frontend API client

From the source: `frontend/app/walker/page.tsx` lines 405-456 (`apiFetch`
and `safeJson` of the frontend library, duplicated in unnamed/part_006).
The JavaScript `fetch` responses are abstracted as status + body text;
`JSON.parse`, which throws on invalid input, is abstracted as a partial
parse function returning the `detail` / `message` fields that `apiFetch`
reads from an error body. -/

/-- An HTTP response as `apiFetch` observes it: status code and body
text. -/
structure HttpResponse where
  status : Nat
  bodyText : String
deriving DecidableEq, Repr

/-- The Fetch API `res.ok` predicate: status in [200, 300). -/
def respOk (r : HttpResponse) : Bool :=
  (200 ≤ r.status) && (r.status < 300)

/-- The fields of a parsed JSON error body that `apiFetch` reads
(`message?.detail || message?.message`). -/
structure BodyFields where
  detail : Option String
  message : Option String
deriving DecidableEq, Repr

/-- What `safeJson` returns: the parsed body, or the raw-text fallback
object `\x7b raw: text \x7d` when parsing fails. -/
inductive SafeJsonResult where
  | parsed (fields : BodyFields)
  | raw (text : String)
deriving DecidableEq, Repr

/-- From the source (walker/page.tsx lines 453-456): `safeJson` reads the
body text and tries `JSON.parse`; on a parse failure it returns
`\x7b raw: text \x7d` instead of raising.  `parse` abstracts `JSON.parse`
(`none` = the parse throws). -/
def safeJson (parse : String → Option BodyFields) (text : String) :
    SafeJsonResult :=
  match parse text with
  | some f => .parsed f
  | none => .raw text

/-- JavaScript truthiness for an optional string field: absent and empty
strings are falsy (the `||` fall-through in `apiFetch`). -/
def truthy : Option String → Option String
  | some t => if t = "" then none else some t
  | none => none

/-- The detail/message fields visible on a `safeJson` result (the raw
fallback object has neither field). -/
def errFields : SafeJsonResult → BodyFields
  | .parsed f => f
  | .raw _ => { detail := none, message := none }

/-- From the source (walker/page.tsx line 447): the thrown error's
message, `message?.detail || message?.message || "HTTP <status>"`. -/
def errMessage (v : SafeJsonResult) (status : Nat) : String :=
  match truthy (errFields v).detail with
  | some d => d
  | none =>
    match truthy (errFields v).message with
    | some m => m
    | none => "HTTP " ++ toString status

/-- The parsed body of the token-refresh response
(`data.access_token`, `data.refresh_token`). -/
structure RefreshBody where
  accessToken : Option String
  refreshToken : Option String
deriving DecidableEq, Repr

/-- The localStorage token pair read by `getTokens`. -/
structure TokenStore where
  access : Option String
  refresh : Option String
deriving DecidableEq, Repr

/-- The environment one `apiFetch` call runs against: the response to
the first request, the refresh endpoint's response and parsed body, the
response to the retried request, and the `JSON.parse` abstraction. -/
structure FetchEnv where
  firstRes : HttpResponse
  refreshRes : HttpResponse
  refreshBody : RefreshBody
  retryRes : HttpResponse
  parse : String → Option BodyFields

/-- The outcome of `apiFetch`: the parsed body on success, or a thrown
`Error` carrying a message. -/
inductive ApiResult where
  | success (v : SafeJsonResult)
  | jsError (msg : String)
deriving DecidableEq, Repr

/-- How many network calls `apiFetch` made: token-refresh calls, and
issues of the original request (`doFetch`). -/
structure FetchTrace where
  refreshCalls : Nat
  requestCalls : Nat
deriving DecidableEq, Repr

/-- From the source (walker/page.tsx lines 405-451): `apiFetch`.  One
`doFetch`; if the response is 401 on an authenticated request and a
refresh token is stored, one POST to the refresh endpoint, and — only if
that response is ok — `setTokens` (access always when truthy, refresh
only when truthy) and exactly one retry of the original request; then
the non-ok check throwing `errMessage`, else the `safeJson` body. -/
def apiFetch (env : FetchEnv) (tokens : TokenStore) (auth : Bool) :
    ApiResult × TokenStore × FetchTrace :=
  let res := env.firstRes
  let step : HttpResponse × TokenStore × FetchTrace :=
    if (res.status == 401) && auth then
      match tokens.refresh with
      | some _ =>
        if respOk env.refreshRes then
          let tokens' : TokenStore :=
            match truthy env.refreshBody.accessToken with
            | some a =>
              { access := some a
                refresh :=
                  match truthy env.refreshBody.refreshToken with
                  | some r => some r
                  | none => tokens.refresh }
            | none => tokens
          (env.retryRes, tokens', ⟨1, 2⟩)
        else (res, tokens, ⟨1, 1⟩)
      | none => (res, tokens, ⟨0, 1⟩)
    else (res, tokens, ⟨0, 1⟩)
  let finalRes := step.1
  let tokens' := step.2.1
  let trace := step.2.2
  if respOk finalRes then
    (.success (safeJson env.parse finalRes.bodyText), tokens', trace)
  else
    (.jsError (errMessage (safeJson env.parse finalRes.bodyText) finalRes.status),
     tokens', trace)

/-- The response whose ok/error outcome `apiFetch` finally reports: the
retried response when the 401-refresh-retry path ran, otherwise the
first response. -/
def finalResponse (env : FetchEnv) (tokens : TokenStore) (auth : Bool) :
    HttpResponse :=
  if (env.firstRes.status == 401) && auth then
    match tokens.refresh with
    | some _ => if respOk env.refreshRes then env.retryRes else env.firstRes
    | none => env.firstRes
  else env.firstRes

/-! ## Walker accept (confirm) on the database status set -/

/-- An order as the confirm endpoint sees it: the schema status and the
assigned walker. -/
structure DbOrder where
  status : DbOrderStatus
  walkerId : Option String
deriving DecidableEq, Repr

/-- Result of a walker-accept attempt. -/
inductive AcceptResult where
  | accepted (o : DbOrder)
  | conflict
deriving DecidableEq, Repr

/-- Modelled from the spec: the walker-accept transition (the
`PUT /orders/.../confirm` endpoint; the order-service backend is not in
the repository snapshot), guarded by walker availability and applied as
a CAS on status.  Per the schema enum (unnamed/part_011 line 377, which
declares no OFFERED value) and the frontend flow (walker/page.tsx lines
34-48: the confirm action is offered on the walker's *pending* list),
the CAS expects PENDING and acceptance yields CONFIRMED. -/
def acceptOrder (walkerAvailable : Bool) (walker : String) (o : DbOrder) :
    AcceptResult :=
  if walkerAvailable && (o.status == .pending) then
    .accepted { status := .confirmed, walkerId := some walker }
  else .conflict

/-! # Theorems -/

/-! ## C2 — declared status set -/

/-- C2 (counterexample): the spec's seven-value status set (with
OFFERED) is not the set the code declares.  The database `orderstatus`
enum (unnamed/part_011 line 377) has six values and no OFFERED member,
so no stored order ever has status OFFERED and OFFERED is not reachable. -/
theorem offered_not_a_declared_status :
    "OFFERED" ∈ specStatusValues ∧
    "OFFERED" ∉ orderstatusValues ∧
    (¬ ∃ s : DbOrderStatus, s.toEnumString = "OFFERED") ∧
    specStatusValues ≠ orderstatusValues := by
  decide

/-- C2 (amended): every order's status is one of exactly the six
declared `orderstatus` values PENDING, CONFIRMED, IN_PROGRESS,
COMPLETED, CANCELLED, NO_WALKER (the status type maps injectively onto
the declared enum strings and covers them all), and CONFIRMED is the
reachable post-matching state: a walker accept moves a PENDING order
directly to CONFIRMED. -/
theorem dbOrderStatus_exactly_declared :
    (∀ s : DbOrderStatus, s.toEnumString ∈ orderstatusValues) ∧
    (∀ s₁ s₂ : DbOrderStatus, s₁.toEnumString = s₂.toEnumString → s₁ = s₂) ∧
    (∀ v ∈ orderstatusValues, ∃ s : DbOrderStatus, s.toEnumString = v) ∧
    orderstatusValues.length = 6 ∧ orderstatusValues.Nodup ∧
    (∃ o, acceptOrder true "W1" { status := .pending, walkerId := none } =
        .accepted o ∧ o.status = .confirmed) := by
  refine ⟨by decide, by decide, by decide, by decide, by decide, ?_⟩
  exact ⟨{ status := .confirmed, walkerId := some "W1" }, by decide, rfl⟩

/-! ## C3 — pricing breakdown identity -/

/-- C3 (counterexample): the §8 happy-path example breakdown "base 400,
commission 80, earnings 320, total 480" violates the claimed identity:
320 + 80 = 400 ≠ 480 (the example's earnings and commission sum to the
base, not to the listed total). -/
theorem specHappyPathBreakdown_violates_identity :
    specHappyPathBreakdown.walkerEarnings + specHappyPathBreakdown.commission ≠
      specHappyPathBreakdown.total ∧
    specHappyPathBreakdown.walkerEarnings + specHappyPathBreakdown.commission =
      specHappyPathBreakdown.baseAmount := by
  constructor
  · simp [specHappyPathBreakdown]
    norm_num
  · simp [specHappyPathBreakdown]
    norm_num

/-- C3 (amended): for every input, the breakdown returned by
`computePrice` satisfies the §4.2 contract — the commission is the fixed
platform percentage of the total (under the 2-decimal currency
rounding), and `walkerEarnings = total - commission`, hence
`walkerEarnings + commission = total`.  (The §8 example tuple itself
does not satisfy this identity; see the counterexample.) -/
theorem computePrice_breakdown_identity (ot : OrderType)
    (durationMinutes walkerHourlyRate demandMultiplier : ℚ) :
    (computePrice ot durationMinutes walkerHourlyRate demandMultiplier).walkerEarnings
      + (computePrice ot durationMinutes walkerHourlyRate demandMultiplier).commission
      = (computePrice ot durationMinutes walkerHourlyRate demandMultiplier).total ∧
    (computePrice ot durationMinutes walkerHourlyRate demandMultiplier).commission
      = round2 (commissionPct *
          (computePrice ot durationMinutes walkerHourlyRate demandMultiplier).total) := by
  constructor
  · simp [computePrice]
  · simp [computePrice]

/-! ## C9 — pricing determinism -/

/-- C9: `computePrice` is deterministic — two calls with identical
inputs (orderType, durationMinutes, walkerHourlyRate, demandMultiplier)
return identical price breakdowns. -/
theorem computePrice_deterministic (ot₁ ot₂ : OrderType)
    (d₁ d₂ r₁ r₂ m₁ m₂ : ℚ)
    (hot : ot₁ = ot₂) (hd : d₁ = d₂) (hr : r₁ = r₂) (hm : m₁ = m₂) :
    computePrice ot₁ d₁ r₁ m₁ = computePrice ot₂ d₂ r₂ m₂ := by
  subst hot
  subst hd
  subst hr
  subst hm
  rfl

/-- C9 witness: the determinism theorem applied at the §8 happy-path
inputs (single walk, 30 minutes, rate 800/h, demand 1). -/
theorem computePrice_deterministic_witness :
    computePrice .singleWalk 30 800 1 = computePrice .singleWalk 30 800 1 :=
  computePrice_deterministic .singleWalk .singleWalk 30 30 800 800 1 1
    rfl rfl rfl rfl

/-! ## C5 — walker accept -/

/-- C5 (counterexample): in the code there is no OFFERED state to accept
from — a walker accept applied to a PENDING order (a status different
from the spec's OFFERED) succeeds and produces CONFIRMED, refuting
"acceptance is possible only for orders in the OFFERED state". -/
theorem accept_from_pending_succeeds :
    acceptOrder true "W1" { status := .pending, walkerId := none } =
      .accepted { status := .confirmed, walkerId := some "W1" } ∧
    DbOrderStatus.pending.toEnumString ≠ "OFFERED" := by
  decide

/-- C5 (amended): a walker accept transitions an order from PENDING to
CONFIRMED, guarded by the walker still being available and applied as a
CAS on status; acceptance is possible only for PENDING orders — for
every order not in PENDING (or with the walker unavailable) the accept
conflicts and produces no CONFIRMED order. -/
theorem acceptOrder_cas (avail : Bool) (walker : String) (o : DbOrder) :
    (∀ o', acceptOrder avail walker o = .accepted o' →
       o.status = .pending ∧ avail = true ∧
       o' = { status := .confirmed, walkerId := some walker }) ∧
    (o.status ≠ .pending → acceptOrder avail walker o = .conflict) ∧
    (avail = false → acceptOrder avail walker o = .conflict) := by
  refine ⟨?_, ?_, ?_⟩
  · intro o' h
    by_cases ha : avail = true
    · by_cases hs : o.status = .pending
      · refine ⟨hs, ha, ?_⟩
        simp [acceptOrder, ha, hs] at h
        exact h.symm
      · simp [acceptOrder, hs] at h
    · have : avail = false := by
        cases avail
        · rfl
        · exact absurd rfl ha
      simp [acceptOrder, this] at h
  · intro hs
    simp [acceptOrder, hs]
  · intro ha
    simp [acceptOrder, ha]

/-- C5 witness: the CAS theorem applied to a CONFIRMED order — not
PENDING, so the accept conflicts. -/
theorem acceptOrder_cas_witness :
    acceptOrder true "W2" { status := .confirmed, walkerId := some "W1" } =
      .conflict :=
  (acceptOrder_cas true "W2" { status := .confirmed, walkerId := some "W1" }).2.1
    (by decide)

/-! ## C6 — lifecycle reachability properties -/

/-- C6: over the §4.4 state table, no step moves CONFIRMED directly to
COMPLETED — COMPLETED is only ever entered from IN_PROGRESS — and the
terminal states COMPLETED, CANCELLED, NO_WALKER admit no further
transition: any run of events from a terminal state is the empty run. -/
theorem lifecycle_no_skip_and_terminal_absorbs :
    (∀ e, lifecycleStep .CONFIRMED e ≠ some .COMPLETED) ∧
    (∀ s e, lifecycleStep s e = some .COMPLETED → s = .IN_PROGRESS) ∧
    (∀ s, s.isTerminal = true → ∀ e, lifecycleStep s e = none) ∧
    (∀ s, s.isTerminal = true → ∀ evs s', runEvents s evs = some s' →
       evs = [] ∧ s' = s) := by
  have hterm : ∀ s : Status, s.isTerminal = true → ∀ e, lifecycleStep s e = none := by
    decide
  refine ⟨by decide, by decide, hterm, ?_⟩
  intro s hs evs s' h
  cases evs with
  | nil =>
    simp [runEvents] at h
    exact ⟨rfl, h.symm⟩
  | cons e rest =>
    have hnone := hterm s hs e
    simp [runEvents, hnone] at h

/-- C6 witness: applied at the terminal state CANCELLED with the empty
run, and at the cancel event out of CONFIRMED. -/
theorem lifecycle_no_skip_and_terminal_absorbs_witness :
    lifecycleStep .CONFIRMED .cancel ≠ some .COMPLETED ∧
    (([] : List Event) = [] ∧ Status.CANCELLED = Status.CANCELLED) := by
  refine ⟨lifecycle_no_skip_and_terminal_absorbs.1 .cancel, ?_⟩
  exact lifecycle_no_skip_and_terminal_absorbs.2.2.2 .CANCELLED (by decide)
    [] .CANCELLED (by simp [runEvents])

/-! ## C7 — exhausted matching -/

/-- C7: for an order in an area where every matching round's radius
finds no candidate, matching performs exactly the bounded number of
retry rounds (3), each widening the search radius (the radii tried are
r0, 2·r0, 4·r0, strictly widening for a positive initial radius), and
the order ends in NO_WALKER with no price computed and no payment
invoked. -/
theorem matching_exhausted_no_walker (candidatesAt : Nat → List String)
    (offerPrice : PriceBreakdown) (r0 : Nat)
    (h : ∀ r ∈ roundRadii r0 maxMatchingRounds, candidatesAt r = []) :
    runMatching candidatesAt offerPrice r0 =
      { finalStatus := .NO_WALKER, price := none, payments := []
        roundsUsed := maxMatchingRounds } ∧
    roundRadii r0 maxMatchingRounds = [r0, 2 * r0, 2 * (2 * r0)] ∧
    (0 < r0 → r0 < 2 * r0 ∧ 2 * r0 < 2 * (2 * r0)) := by
  have hradii : roundRadii r0 maxMatchingRounds = [r0, 2 * r0, 2 * (2 * r0)] := by
    simp [roundRadii, maxMatchingRounds, widenRadius]
  have h1 : candidatesAt r0 = [] := by
    apply h
    rw [hradii]
    simp
  have h2 : candidatesAt (2 * r0) = [] := by
    apply h
    rw [hradii]
    simp
  have h3 : candidatesAt (2 * (2 * r0)) = [] := by
    apply h
    rw [hradii]
    simp
  refine ⟨?_, hradii, ?_⟩
  · simp [runMatching, maxMatchingRounds, matchingRounds, widenRadius, h1, h2, h3]
  · intro hr
    omega

/-- C7 witness: a region with no walkers at any radius, starting from a
2000 m radius. -/
theorem matching_exhausted_no_walker_witness :
    runMatching (fun _ => []) (computePrice .singleWalk 30 800 1) 2000 =
      { finalStatus := .NO_WALKER, price := none, payments := []
        roundsUsed := maxMatchingRounds } ∧
    (0 < 2000 → 2000 < 2 * 2000 ∧ 2 * 2000 < 2 * (2 * 2000)) := by
  have h := matching_exhausted_no_walker (fun _ => [])
    (computePrice .singleWalk 30 800 1) 2000 (fun r _ => rfl)
  exact ⟨h.1, h.2.2⟩

/-! ## C4 — idempotent retries and the append-only history -/

/-- The §4.4 table has no self-loop: a valid transition changes status. -/
theorem validTransition_ne (s t : Status) (h : validTransition s t = true) :
    s ≠ t := by
  revert h
  revert s t
  decide

/-- C4: re-issuing an already-applied transition (same order, same
actor, same target status) is a no-op — the first request applies the
transition and appends exactly one history entry, the second returns the
same final order snapshot with no further entry — and every controller
call extends the history log append-only (the old log is a prefix of the
new one, entries being (status, actor, timestamp, reason) records). -/
theorem handleTransition_idempotent :
    (∀ (o : OrderRec) (target : Status) (actor : String) (t₁ t₂ : Nat)
       (reason₁ reason₂ : Option String),
       validTransition o.status target = true →
       (handleTransition o target actor t₁ reason₁).2 =
         .ok (handleTransition o target actor t₁ reason₁).1 ∧
       (handleTransition o target actor t₁ reason₁).1.history =
         o.history ++ [⟨target, actor, t₁, reason₁⟩] ∧
       handleTransition (handleTransition o target actor t₁ reason₁).1
           target actor t₂ reason₂ =
         ((handleTransition o target actor t₁ reason₁).1,
          .ok (handleTransition o target actor t₁ reason₁).1)) ∧
    (∀ (o : OrderRec) (target : Status) (actor : String) (t : Nat)
       (reason : Option String), ∃ tail,
       (handleTransition o target actor t reason).1.history =
         o.history ++ tail) := by
  constructor
  · intro o target actor t₁ t₂ reason₁ reason₂ hvalid
    have hne : o.status ≠ target := validTransition_ne _ _ hvalid
    have hre : (match o.history.getLast? with
        | some e => decide (o.status = target) && decide (e.status = target) &&
            decide (e.actor = actor)
        | none => false) = false := by
      cases hgl : o.history.getLast? with
      | none => rfl
      | some e =>
        simp [hne]
    have hfirst : handleTransition o target actor t₁ reason₁ =
        ({ status := target
           history := o.history ++ [⟨target, actor, t₁, reason₁⟩] },
         .ok { status := target
               history := o.history ++ [⟨target, actor, t₁, reason₁⟩] }) := by
      unfold handleTransition
      cases hgl : o.history.getLast? with
      | none => simp [hvalid]
      | some e => simp [hne, hvalid]
    refine ⟨by rw [hfirst], by rw [hfirst], ?_⟩
    rw [hfirst]
    unfold handleTransition
    have hlast : (o.history ++ [(⟨target, actor, t₁, reason₁⟩ : HistoryEntry)]).getLast?
        = some ⟨target, actor, t₁, reason₁⟩ := by
      simp
    simp [hlast]
  · intro o target actor t reason
    unfold handleTransition
    cases hgl : o.history.getLast? with
    | none =>
      by_cases hv : validTransition o.status target = true
      · exact ⟨[⟨target, actor, t, reason⟩], by simp [hv]⟩
      · refine ⟨[], ?_⟩
        simp at hv
        simp [hv]
    | some e =>
      by_cases hb : (decide (o.status = target) && decide (e.status = target) &&
          decide (e.actor = actor)) = true
      · exact ⟨[], by simp [hb]⟩
      · by_cases hv : validTransition o.status target = true
        · refine ⟨[⟨target, actor, t, reason⟩], ?_⟩
          simp only [Bool.not_eq_true] at hb
          simp [hb, hv]
        · refine ⟨[], ?_⟩
          simp only [Bool.not_eq_true] at hb
          simp at hv
          simp [hb, hv]

/-- C4 witness: the idempotence theorem applied to an OFFERED order that
walker W1 confirms twice (retry after a network timeout). -/
theorem handleTransition_idempotent_witness :
    (handleTransition ⟨.OFFERED, []⟩ .CONFIRMED "W1" 10 none).2 =
      .ok (handleTransition ⟨.OFFERED, []⟩ .CONFIRMED "W1" 10 none).1 ∧
    (handleTransition ⟨.OFFERED, []⟩ .CONFIRMED "W1" 10 none).1.history =
      [] ++ [⟨.CONFIRMED, "W1", 10, none⟩] ∧
    handleTransition (handleTransition ⟨.OFFERED, []⟩ .CONFIRMED "W1" 10 none).1
        .CONFIRMED "W1" 25 none =
      ((handleTransition ⟨.OFFERED, []⟩ .CONFIRMED "W1" 10 none).1,
       .ok (handleTransition ⟨.OFFERED, []⟩ .CONFIRMED "W1" 10 none).1) :=
  handleTransition_idempotent.1 ⟨.OFFERED, []⟩ .CONFIRMED "W1" 10 25 none none
    (by decide)

/-! ## C1 — Order Store CAS -/

/-- Reading back the row just written under the same order id. -/
theorem getById_setById (s : Store) (orderId : String) (o o' : OrderRec)
    (h : getById s orderId = some o) :
    getById (setById s orderId o') orderId = some o' := by
  induction s with
  | nil => simp [getById] at h
  | cons p rest ih =>
    by_cases hp : p.1 = orderId
    · simp [getById, setById, List.find?, hp]
    · have h' : getById rest orderId = some o := by
        simpa [getById, List.find?, hp] using h
      have := ih h'
      simpa [getById, setById, List.find?, hp] using this

/-- Once the stored status is no longer OFFERED, every further confirm
attempt fails with `StaleTransition` and leaves the store unchanged. -/
theorem runConfirm_stale (s : Store) (orderId : String) (o : OrderRec)
    (h : getById s orderId = some o) (hno : o.status ≠ .OFFERED) :
    ∀ attempts : List (String × Nat),
      runConfirmAttempts s orderId attempts =
        (s, attempts.map (fun _ => TxResult.staleTransition)) := by
  intro attempts
  induction attempts with
  | nil => rfl
  | cons a rest ih =>
    obtain ⟨w, t⟩ := a
    have hca : confirmAttempt s orderId w t = (s, .staleTransition) := by
      simp [confirmAttempt, appendStatusTransition, h, hno]
    simp [runConfirmAttempts, hca, ih]

/-- Counting `success` in an all-stale result list. -/
theorem count_success_all_stale (n : Nat) :
    (List.replicate n TxResult.staleTransition).count .success = 0 := by
  simp [List.count_replicate]

/-- Counting `staleTransition` in an all-stale result list. -/
theorem count_stale_all_stale (n : Nat) :
    (List.replicate n TxResult.staleTransition).count .staleTransition = n := by
  simp

/-- C1: `appendStatusTransition` is a compare-and-swap.  For an existing
order: the call succeeds iff the stored status equals
`expectedCurrentStatus` at write time; otherwise it returns the
`StaleTransition` conflict and leaves the store — the order row and its
history — unchanged; on success the status update and the appended
history entry land in the one atomic store update.  Consequently, under
N ≥ 1 concurrent confirm attempts on one OFFERED order — totally
ordered by the CAS per §5 — exactly one succeeds and all the others
receive the conflict. -/
theorem appendStatusTransition_cas_atomic :
    (∀ (s : Store) (orderId : String) (expected newStatus : Status)
       (actor : String) (t : Nat) (reason : Option String) (o : OrderRec),
       getById s orderId = some o →
       (((appendStatusTransition s orderId expected newStatus actor t reason).2
           = .success) ↔ o.status = expected) ∧
       (o.status ≠ expected →
          appendStatusTransition s orderId expected newStatus actor t reason
            = (s, .staleTransition)) ∧
       (o.status = expected →
          getById
            (appendStatusTransition s orderId expected newStatus actor t reason).1
            orderId
            = some { status := newStatus
                     history := o.history ++ [⟨newStatus, actor, t, reason⟩] })) ∧
    (∀ (s : Store) (orderId : String) (o : OrderRec)
       (attempts : List (String × Nat)),
       getById s orderId = some o → o.status = .OFFERED → attempts ≠ [] →
       (runConfirmAttempts s orderId attempts).2.count .success = 1 ∧
       (runConfirmAttempts s orderId attempts).2.count .staleTransition =
         attempts.length - 1) := by
  constructor
  · intro s orderId expected newStatus actor t reason o h
    refine ⟨?_, ?_, ?_⟩
    · constructor
      · intro hs
        by_cases he : o.status = expected
        · exact he
        · simp [appendStatusTransition, h, he] at hs
      · intro he
        simp [appendStatusTransition, h, he]
    · intro he
      simp [appendStatusTransition, h, he]
    · intro he
      simp only [appendStatusTransition, h, he, if_pos]
      exact getById_setById s orderId o _ h
  · intro s orderId o attempts h hoff hne
    cases attempts with
    | nil => exact absurd rfl hne
    | cons a rest =>
      obtain ⟨w, t⟩ := a
      have hca : confirmAttempt s orderId w t =
          (setById s orderId
            { status := .CONFIRMED
              history := o.history ++ [⟨.CONFIRMED, w, t, none⟩] },
           .success) := by
        simp [confirmAttempt, appendStatusTransition, h, hoff]
      have hget : getById
          (setById s orderId
            { status := .CONFIRMED
              history := o.history ++ [⟨.CONFIRMED, w, t, none⟩] }) orderId =
          some { status := .CONFIRMED
                 history := o.history ++ [⟨.CONFIRMED, w, t, none⟩] } :=
        getById_setById s orderId o _ h
      have hrest := runConfirm_stale _ orderId _ hget (by simp) rest
      constructor
      · simp [runConfirmAttempts, hca, hrest, List.count_cons,
          count_success_all_stale]
      · simp [runConfirmAttempts, hca, hrest, List.count_cons,
          count_stale_all_stale]

/-- C1 witness: a store holding one OFFERED order "o1"; two simulated
walkers confirm concurrently — the first succeeds, the second gets the
conflict — and the CAS characterization holds for the first call. -/
theorem appendStatusTransition_cas_atomic_witness :
    ((appendStatusTransition [("o1", ⟨.OFFERED, []⟩)] "o1" .OFFERED .CONFIRMED
        "W1" 5 none).2 = .success ↔
      (⟨.OFFERED, []⟩ : OrderRec).status = .OFFERED) ∧
    (runConfirmAttempts [("o1", ⟨.OFFERED, []⟩)] "o1"
        [("W1", 5), ("W2", 6)]).2.count .success = 1 ∧
    (runConfirmAttempts [("o1", ⟨.OFFERED, []⟩)] "o1"
        [("W1", 5), ("W2", 6)]).2.count .staleTransition = 1 := by
  have h1 := (appendStatusTransition_cas_atomic.1
    [("o1", ⟨.OFFERED, []⟩)] "o1" .OFFERED .CONFIRMED "W1" 5 none
    ⟨.OFFERED, []⟩ (by simp [getById, List.find?])).1
  have h2 := appendStatusTransition_cas_atomic.2
    [("o1", ⟨.OFFERED, []⟩)] "o1" ⟨.OFFERED, []⟩ [("W1", 5), ("W2", 6)]
    (by simp [getById, List.find?]) rfl (by simp)
  exact ⟨h1, h2.1, h2.2⟩

/-! ## C10 — frontend apiFetch -/

/-- C10: for every `apiFetch` call — (i) at most one token-refresh call
and at most one retry of the original request are ever made (never a
loop); (ii) when the first response is 401 on an authenticated request
with a stored refresh token, exactly one refresh call is made, and the
original request is retried exactly once iff the refresh response is ok;
(iii) a final non-ok response yields a thrown Error whose message is the
body's truthy `detail` field, else its truthy `message` field, else
"HTTP <status>" (a raw, unparsable body always falls back to
"HTTP <status>"); and (iv) `safeJson` never raises on a body that is not
valid JSON — it returns the raw-text fallback. -/
theorem apiFetch_refresh_once_and_error_messages :
    (∀ (env : FetchEnv) (tokens : TokenStore) (auth : Bool),
       (apiFetch env tokens auth).2.2.refreshCalls ≤ 1 ∧
       (apiFetch env tokens auth).2.2.requestCalls ≤ 2) ∧
    (∀ (env : FetchEnv) (tokens : TokenStore),
       env.firstRes.status = 401 → tokens.refresh.isSome = true →
       (apiFetch env tokens true).2.2.refreshCalls = 1 ∧
       ((apiFetch env tokens true).2.2.requestCalls =
          if respOk env.refreshRes then 2 else 1)) ∧
    (∀ (env : FetchEnv) (tokens : TokenStore) (auth : Bool),
       respOk (finalResponse env tokens auth) = false →
       (apiFetch env tokens auth).1 =
         .jsError (errMessage
           (safeJson env.parse (finalResponse env tokens auth).bodyText)
           (finalResponse env tokens auth).status)) ∧
    (∀ (f : BodyFields) (st : Nat) (d : String), d ≠ "" → f.detail = some d →
       errMessage (.parsed f) st = d) ∧
    (∀ (f : BodyFields) (st : Nat) (m : String), truthy f.detail = none →
       m ≠ "" → f.message = some m → errMessage (.parsed f) st = m) ∧
    (∀ (f : BodyFields) (st : Nat), truthy f.detail = none →
       truthy f.message = none →
       errMessage (.parsed f) st = "HTTP " ++ toString st) ∧
    (∀ (text : String) (st : Nat),
       errMessage (.raw text) st = "HTTP " ++ toString st) ∧
    (∀ (parse : String → Option BodyFields) (text : String),
       parse text = none → safeJson parse text = .raw text) := by
  refine ⟨?_, ?_, ?_, ?_, ?_, ?_, ?_, ?_⟩
  · intro env tokens auth
    unfold apiFetch
    cases hre : tokens.refresh <;>
      by_cases h1 : ((env.firstRes.status == 401) && auth) = true <;>
        by_cases h2 : respOk env.refreshRes = true <;>
          simp [h1, hre, h2] <;> split <;> simp
  · intro env tokens h401 hrefresh
    obtain ⟨r, hre⟩ := Option.isSome_iff_exists.mp hrefresh
    have h1 : ((env.firstRes.status == 401) && true) = true := by
      simp [h401]
    unfold apiFetch
    by_cases h2 : respOk env.refreshRes = true <;>
      simp [h1, hre, h2] <;> split <;> simp
  · intro env tokens auth hfail
    unfold apiFetch finalResponse at *
    by_cases h1 : ((env.firstRes.status == 401) && auth) = true <;>
      cases hre : tokens.refresh <;>
        by_cases h2 : respOk env.refreshRes = true <;>
          simp [h1, hre, h2] at hfail ⊢ <;> simp [hfail]
  · intro f st d hd hdet
    simp [errMessage, errFields, truthy, hdet, hd]
  · intro f st m hdet hm hmsg
    cases hd : f.detail with
    | none => simp [errMessage, errFields, truthy, hd, hmsg, hm]
    | some t =>
      have ht : t = "" := by
        by_cases h : t = ""
        · exact h
        · simp [truthy, hd, h] at hdet
      subst ht
      simp [errMessage, errFields, truthy, hd, hmsg, hm]
  · intro f st hdet hmsg
    have hdcase : f.detail = none ∨ f.detail = some "" := by
      cases hd : f.detail with
      | none => exact Or.inl rfl
      | some t =>
        right
        by_cases h : t = ""
        · rw [h]
        · simp [truthy, hd, h] at hdet
    have hmcase : f.message = none ∨ f.message = some "" := by
      cases hmm : f.message with
      | none => exact Or.inl rfl
      | some t =>
        right
        by_cases h : t = ""
        · rw [h]
        · simp [truthy, hmm, h] at hmsg
    rcases hdcase with hd | hd <;> rcases hmcase with hmm | hmm <;>
      simp [errMessage, errFields, truthy, hd, hmm]
  · intro text st
    simp [errMessage, errFields, truthy]
  · intro parse text h
    simp [safeJson, h]

/-- C10 witness: a 401 first response with a stored refresh token, an ok
refresh, and a failing retry whose body is not JSON — one refresh call,
two issues of the original request, and the thrown message falls back to
"HTTP 500"; `safeJson` on an unparsable body returns the raw fallback. -/
theorem apiFetch_refresh_once_witness :
    (apiFetch
        { firstRes := { status := 401, bodyText := "x" }
          refreshRes := { status := 200, bodyText := "tok" }
          refreshBody := { accessToken := some "a", refreshToken := some "b" }
          retryRes := { status := 500, bodyText := "oops" }
          parse := fun _ => none }
        { access := some "old", refresh := some "r" } true).2.2.refreshCalls
      = 1 ∧
    (apiFetch
        { firstRes := { status := 401, bodyText := "x" }
          refreshRes := { status := 200, bodyText := "tok" }
          refreshBody := { accessToken := some "a", refreshToken := some "b" }
          retryRes := { status := 500, bodyText := "oops" }
          parse := fun _ => none }
        { access := some "old", refresh := some "r" } true).1
      = .jsError "HTTP 500" ∧
    safeJson (fun _ => none) "zzz" = .raw "zzz" := by
  refine ⟨?_, ?_, ?_⟩
  · exact (apiFetch_refresh_once_and_error_messages.2.1
      { firstRes := { status := 401, bodyText := "x" }
        refreshRes := { status := 200, bodyText := "tok" }
        refreshBody := { accessToken := some "a", refreshToken := some "b" }
        retryRes := { status := 500, bodyText := "oops" }
        parse := fun _ => none }
      { access := some "old", refresh := some "r" } rfl rfl).1
  · have h := apiFetch_refresh_once_and_error_messages.2.2.1
      { firstRes := { status := 401, bodyText := "x" }
        refreshRes := { status := 200, bodyText := "tok" }
        refreshBody := { accessToken := some "a", refreshToken := some "b" }
        retryRes := { status := 500, bodyText := "oops" }
        parse := fun _ => none }
      { access := some "old", refresh := some "r" } true (by decide)
    rw [h]
    rfl
  · exact apiFetch_refresh_once_and_error_messages.2.2.2.2.2.2.2
      (fun _ => none) "zzz" rfl

/-! ## C8 — timestamps: write-once and ordering -/

/-- Every set timestamp stays bounded when the bound grows. -/
theorem tsBounded_mono (ts : Timestamps) (lb lb' : Nat) (h : lb ≤ lb')
    (hb : tsBounded ts lb) : tsBounded ts lb' := by
  obtain ⟨h0, h1, h2, h3, h4⟩ := hb
  exact ⟨h0.trans h, fun t ht => (h1 t ht).trans h, fun t ht => (h2 t ht).trans h,
    fun t ht => (h3 t ht).trans h, fun t ht => (h4 t ht).trans h⟩

/-- `applyEvent` never touches the creation timestamp. -/
theorem applyEvent_created (o : OrderState) (e : Event) (t : Nat) :
    (applyEvent o e t).ts.created = o.ts.created := by
  unfold applyEvent
  cases h : lifecycleStep o.status e with
  | none => rfl
  | some s' => cases s' <;> rfl

/-- One step preserves the lifecycle invariant, advancing the clock
bound to the step's time. -/
theorem applyEvent_inv (o : OrderState) (e : Event) (t lb : Nat)
    (hinv : OrderInv o lb) (hle : lb ≤ t) : OrderInv (applyEvent o e t) t := by
  obtain ⟨hst, hord, hbnd⟩ := hinv
  obtain ⟨hb0, hb1, hb2, hb3, hb4⟩ := hbnd
  obtain ⟨ho1, ho2, ho3, ho4, ho5, ho6⟩ := hord
  obtain ⟨st, ts⟩ := o
  cases st with
  | PENDING =>
    cases e with
    | cancel =>
      refine ⟨rfl, ⟨ho1, ho2, ho3, ho4, ho5, ho6⟩, ?_⟩
      exact ⟨hb0.trans hle, fun x hx => (hb1 x hx).trans hle,
        fun x hx => (hb2 x hx).trans hle, fun x hx => (hb3 x hx).trans hle,
        fun x hx => le_of_eq (Option.some.inj hx).symm⟩
    | _ =>
      exact ⟨hst, ⟨ho1, ho2, ho3, ho4, ho5, ho6⟩,
        tsBounded_mono ts lb t hle ⟨hb0, hb1, hb2, hb3, hb4⟩⟩
  | OFFERED =>
    obtain ⟨hc, hs, hp, hx⟩ := hst
    cases e with
    | walkerAccepts =>
      refine ⟨⟨rfl, hs, hp, hx⟩, ?_, ?_⟩
      · refine ⟨?_, ?_, ?_, ?_, ?_, ?_⟩
        · intro tc h
          exact (Option.some.inj h) ▸ (hb0.trans hle)
        · intro tst h
          have h' : ts.startedAt = some tst := h
          rw [hs] at h'
          exact Option.noConfusion h'
        · intro tcp h
          have h' : ts.completedAt = some tcp := h
          rw [hp] at h'
          exact Option.noConfusion h'
        · intro tc tst h1 h2
          have h' : ts.startedAt = some tst := h2
          rw [hs] at h'
          exact Option.noConfusion h'
        · intro tc tcp h1 h2
          have h' : ts.completedAt = some tcp := h2
          rw [hp] at h'
          exact Option.noConfusion h'
        · intro tst tcp h1 h2
          have h' : ts.completedAt = some tcp := h2
          rw [hp] at h'
          exact Option.noConfusion h'
      · exact ⟨hb0.trans hle, fun x hh => le_of_eq (Option.some.inj hh).symm,
          fun x hh => (hb2 x hh).trans hle, fun x hh => (hb3 x hh).trans hle,
          fun x hh => (hb4 x hh).trans hle⟩
    | cancel =>
      refine ⟨rfl, ⟨ho1, ho2, ho3, ho4, ho5, ho6⟩, ?_⟩
      exact ⟨hb0.trans hle, fun y hy => (hb1 y hy).trans hle,
        fun y hy => (hb2 y hy).trans hle, fun y hy => (hb3 y hy).trans hle,
        fun y hy => le_of_eq (Option.some.inj hy).symm⟩
    | _ =>
      exact ⟨⟨hc, hs, hp, hx⟩, ⟨ho1, ho2, ho3, ho4, ho5, ho6⟩,
        tsBounded_mono ts lb t hle ⟨hb0, hb1, hb2, hb3, hb4⟩⟩
  | CONFIRMED =>
    obtain ⟨hc, hs, hp, hx⟩ := hst
    cases e with
    | walkerStarts =>
      refine ⟨⟨hc, rfl, hp, hx⟩, ?_, ?_⟩
      · refine ⟨?_, ?_, ?_, ?_, ?_, ?_⟩
        · intro tc h
          exact ho1 tc h
        · intro tst h
          exact (Option.some.inj h) ▸ (hb0.trans hle)
        · intro tcp h
          have h' : ts.completedAt = some tcp := h
          rw [hp] at h'
          exact Option.noConfusion h'
        · intro tc tst h1 h2
          exact (Option.some.inj h2) ▸ ((hb1 tc h1).trans hle)
        · intro tc tcp h1 h2
          have h' : ts.completedAt = some tcp := h2
          rw [hp] at h'
          exact Option.noConfusion h'
        · intro tst tcp h1 h2
          have h' : ts.completedAt = some tcp := h2
          rw [hp] at h'
          exact Option.noConfusion h'
      · exact ⟨hb0.trans hle, fun y hy => (hb1 y hy).trans hle,
          fun y hy => le_of_eq (Option.some.inj hy).symm,
          fun y hy => (hb3 y hy).trans hle,
          fun y hy => (hb4 y hy).trans hle⟩
    | cancel =>
      refine ⟨rfl, ⟨ho1, ho2, ho3, ho4, ho5, ho6⟩, ?_⟩
      exact ⟨hb0.trans hle, fun y hy => (hb1 y hy).trans hle,
        fun y hy => (hb2 y hy).trans hle, fun y hy => (hb3 y hy).trans hle,
        fun y hy => le_of_eq (Option.some.inj hy).symm⟩
    | _ =>
      exact ⟨⟨hc, hs, hp, hx⟩, ⟨ho1, ho2, ho3, ho4, ho5, ho6⟩,
        tsBounded_mono ts lb t hle ⟨hb0, hb1, hb2, hb3, hb4⟩⟩
  | IN_PROGRESS =>
    obtain ⟨hc, hs, hp, hx⟩ := hst
    cases e with
    | walkerCompletes =>
      refine ⟨⟨hc, hs, rfl, hx⟩, ?_, ?_⟩
      · refine ⟨?_, ?_, ?_, ?_, ?_, ?_⟩
        · intro tc h
          exact ho1 tc h
        · intro tst h
          exact ho2 tst h
        · intro tcp h
          exact (Option.some.inj h) ▸ (hb0.trans hle)
        · intro tc tst h1 h2
          exact ho4 tc tst h1 h2
        · intro tc tcp h1 h2
          exact (Option.some.inj h2) ▸ ((hb1 tc h1).trans hle)
        · intro tst tcp h1 h2
          exact (Option.some.inj h2) ▸ ((hb2 tst h1).trans hle)
      · exact ⟨hb0.trans hle, fun y hy => (hb1 y hy).trans hle,
          fun y hy => (hb2 y hy).trans hle,
          fun y hy => le_of_eq (Option.some.inj hy).symm,
          fun y hy => (hb4 y hy).trans hle⟩
    | _ =>
      exact ⟨⟨hc, hs, hp, hx⟩, ⟨ho1, ho2, ho3, ho4, ho5, ho6⟩,
        tsBounded_mono ts lb t hle ⟨hb0, hb1, hb2, hb3, hb4⟩⟩
  | COMPLETED =>
    cases e <;>
      exact ⟨hst, ⟨ho1, ho2, ho3, ho4, ho5, ho6⟩,
        tsBounded_mono ts lb t hle ⟨hb0, hb1, hb2, hb3, hb4⟩⟩
  | CANCELLED =>
    cases e <;>
      exact ⟨hst, ⟨ho1, ho2, ho3, ho4, ho5, ho6⟩,
        tsBounded_mono ts lb t hle ⟨hb0, hb1, hb2, hb3, hb4⟩⟩
  | NO_WALKER =>
    cases e <;>
      exact ⟨hst, ⟨ho1, ho2, ho3, ho4, ho5, ho6⟩,
        tsBounded_mono ts lb t hle ⟨hb0, hb1, hb2, hb3, hb4⟩⟩

/-- A step never overwrites an already-set confirmation timestamp. -/
theorem applyEvent_keeps_confirmed (o : OrderState) (e : Event) (t v : Nat)
    (hst : statusTs o) (h : o.ts.confirmedAt = some v) :
    (applyEvent o e t).ts.confirmedAt = some v := by
  obtain ⟨st, ts⟩ := o
  cases st <;> cases e <;> simp_all [applyEvent, lifecycleStep, statusTs]

/-- A step never overwrites an already-set start timestamp. -/
theorem applyEvent_keeps_started (o : OrderState) (e : Event) (t v : Nat)
    (hst : statusTs o) (h : o.ts.startedAt = some v) :
    (applyEvent o e t).ts.startedAt = some v := by
  obtain ⟨st, ts⟩ := o
  cases st <;> cases e <;> simp_all [applyEvent, lifecycleStep, statusTs]

/-- A step never overwrites an already-set completion timestamp. -/
theorem applyEvent_keeps_completed (o : OrderState) (e : Event) (t v : Nat)
    (hst : statusTs o) (h : o.ts.completedAt = some v) :
    (applyEvent o e t).ts.completedAt = some v := by
  obtain ⟨st, ts⟩ := o
  cases st <;> cases e <;> simp_all [applyEvent, lifecycleStep, statusTs]

/-- A step never overwrites an already-set cancellation timestamp. -/
theorem applyEvent_keeps_cancelled (o : OrderState) (e : Event) (t v : Nat)
    (hst : statusTs o) (h : o.ts.cancelledAt = some v) :
    (applyEvent o e t).ts.cancelledAt = some v := by
  obtain ⟨st, ts⟩ := o
  cases st <;> cases e <;> simp_all [applyEvent, lifecycleStep, statusTs]

/-- Running an appended trace is running the two pieces in order. -/
theorem runOrder_append (o : OrderState) (p q : List (Event × Nat)) :
    runOrder o (p ++ q) = runOrder (runOrder o p) q := by
  induction p generalizing o with
  | nil => rfl
  | cons a rest ih =>
    obtain ⟨e, t⟩ := a
    simp [runOrder, ih]

/-- The lifecycle invariant holds after any run with a monotone clock. -/
theorem runOrder_inv (p : List (Event × Nat)) :
    ∀ (o : OrderState) (lb : Nat), OrderInv o lb → timesChain lb p →
      OrderInv (runOrder o p) (lastLB lb p) := by
  induction p with
  | nil => intro o lb h _; exact h
  | cons a rest ih =>
    obtain ⟨e, t⟩ := a
    intro o lb hinv hchain
    obtain ⟨hle, hrest⟩ := hchain
    exact ih (applyEvent o e t) t (applyEvent_inv o e t lb hinv hle) hrest

/-- A monotone clock over a concatenation splits at the junction. -/
theorem timesChain_append (lb : Nat) (p q : List (Event × Nat)) :
    timesChain lb (p ++ q) ↔
      timesChain lb p ∧ timesChain (lastLB lb p) q := by
  induction p generalizing lb with
  | nil => simp [timesChain, lastLB]
  | cons a rest ih =>
    obtain ⟨e, t⟩ := a
    simp [timesChain, lastLB, ih, and_assoc]

/-- A run never changes the creation timestamp. -/
theorem runOrder_created (q : List (Event × Nat)) :
    ∀ o : OrderState, (runOrder o q).ts.created = o.ts.created := by
  induction q with
  | nil => intro o; rfl
  | cons a rest ih =>
    obtain ⟨e, t⟩ := a
    intro o
    calc (runOrder o ((e, t) :: rest)).ts.created
        = (runOrder (applyEvent o e t) rest).ts.created := rfl
      _ = (applyEvent o e t).ts.created := ih _
      _ = o.ts.created := applyEvent_created o e t

/-- A run never overwrites an already-set confirmation timestamp. -/
theorem runOrder_keeps_confirmed (q : List (Event × Nat)) :
    ∀ (o : OrderState) (lb : Nat), OrderInv o lb → timesChain lb q →
      ∀ v, o.ts.confirmedAt = some v →
        (runOrder o q).ts.confirmedAt = some v := by
  induction q with
  | nil => intro o lb _ _ v h; exact h
  | cons a rest ih =>
    obtain ⟨e, t⟩ := a
    intro o lb hinv hchain v h
    obtain ⟨hle, hrest⟩ := hchain
    exact ih (applyEvent o e t) t (applyEvent_inv o e t lb hinv hle) hrest v
      (applyEvent_keeps_confirmed o e t v hinv.1 h)

/-- A run never overwrites an already-set start timestamp. -/
theorem runOrder_keeps_started (q : List (Event × Nat)) :
    ∀ (o : OrderState) (lb : Nat), OrderInv o lb → timesChain lb q →
      ∀ v, o.ts.startedAt = some v →
        (runOrder o q).ts.startedAt = some v := by
  induction q with
  | nil => intro o lb _ _ v h; exact h
  | cons a rest ih =>
    obtain ⟨e, t⟩ := a
    intro o lb hinv hchain v h
    obtain ⟨hle, hrest⟩ := hchain
    exact ih (applyEvent o e t) t (applyEvent_inv o e t lb hinv hle) hrest v
      (applyEvent_keeps_started o e t v hinv.1 h)

/-- A run never overwrites an already-set completion timestamp. -/
theorem runOrder_keeps_completed (q : List (Event × Nat)) :
    ∀ (o : OrderState) (lb : Nat), OrderInv o lb → timesChain lb q →
      ∀ v, o.ts.completedAt = some v →
        (runOrder o q).ts.completedAt = some v := by
  induction q with
  | nil => intro o lb _ _ v h; exact h
  | cons a rest ih =>
    obtain ⟨e, t⟩ := a
    intro o lb hinv hchain v h
    obtain ⟨hle, hrest⟩ := hchain
    exact ih (applyEvent o e t) t (applyEvent_inv o e t lb hinv hle) hrest v
      (applyEvent_keeps_completed o e t v hinv.1 h)

/-- A run never overwrites an already-set cancellation timestamp. -/
theorem runOrder_keeps_cancelled (q : List (Event × Nat)) :
    ∀ (o : OrderState) (lb : Nat), OrderInv o lb → timesChain lb q →
      ∀ v, o.ts.cancelledAt = some v →
        (runOrder o q).ts.cancelledAt = some v := by
  induction q with
  | nil => intro o lb _ _ v h; exact h
  | cons a rest ih =>
    obtain ⟨e, t⟩ := a
    intro o lb hinv hchain v h
    obtain ⟨hle, hrest⟩ := hchain
    exact ih (applyEvent o e t) t (applyEvent_inv o e t lb hinv hle) hrest v
      (applyEvent_keeps_cancelled o e t v hinv.1 h)

/-- A fresh order satisfies the lifecycle invariant at its creation
time. -/
theorem freshOrder_inv (t0 : Nat) : OrderInv (freshOrder t0) t0 := by
  simp [freshOrder, OrderInv, statusTs, tsOrdered, tsBounded]

/-- C8: along any lifecycle run with a monotone clock, the §3 timestamp
contract holds — the ordering `completed_at ≥ started_at ≥ confirmed_at
≥ created_at` holds among the set timestamps of the final state, the
creation timestamp keeps its original value, and each of the confirmed /
started / completed / cancelled timestamps is set at most once: once set
at any prefix of the run, it keeps that exact value to the end. -/
theorem order_timestamps_once_and_ordered (t0 : Nat)
    (tr : List (Event × Nat)) (hchain : timesChain t0 tr) :
    tsOrdered (runOrder (freshOrder t0) tr).ts ∧
    (runOrder (freshOrder t0) tr).ts.created = t0 ∧
    (∀ p q, tr = p ++ q →
      (∀ v, (runOrder (freshOrder t0) p).ts.confirmedAt = some v →
        (runOrder (freshOrder t0) tr).ts.confirmedAt = some v) ∧
      (∀ v, (runOrder (freshOrder t0) p).ts.startedAt = some v →
        (runOrder (freshOrder t0) tr).ts.startedAt = some v) ∧
      (∀ v, (runOrder (freshOrder t0) p).ts.completedAt = some v →
        (runOrder (freshOrder t0) tr).ts.completedAt = some v) ∧
      (∀ v, (runOrder (freshOrder t0) p).ts.cancelledAt = some v →
        (runOrder (freshOrder t0) tr).ts.cancelledAt = some v)) := by
  have hfresh := freshOrder_inv t0
  have hinvTr := runOrder_inv tr _ _ hfresh hchain
  refine ⟨hinvTr.2.1, ?_, ?_⟩
  · rw [runOrder_created]
    rfl
  · intro p q hpq
    subst hpq
    obtain ⟨hp, hq⟩ := (timesChain_append t0 p q).mp hchain
    have hinvP := runOrder_inv p _ _ hfresh hp
    rw [runOrder_append]
    exact ⟨fun v hv => runOrder_keeps_confirmed q _ _ hinvP hq v hv,
      fun v hv => runOrder_keeps_started q _ _ hinvP hq v hv,
      fun v hv => runOrder_keeps_completed q _ _ hinvP hq v hv,
      fun v hv => runOrder_keeps_cancelled q _ _ hinvP hq v hv⟩

/-- C8 witness: the happy-path run created at time 0 — matched at 1,
accepted at 2, started at 3, completed at 4. -/
theorem order_timestamps_once_and_ordered_witness :
    tsOrdered (runOrder (freshOrder 0)
      [(.matchFound, 1), (.walkerAccepts, 2), (.walkerStarts, 3),
       (.walkerCompletes, 4)]).ts ∧
    (runOrder (freshOrder 0)
      [(.matchFound, 1), (.walkerAccepts, 2), (.walkerStarts, 3),
       (.walkerCompletes, 4)]).ts.created = 0 := by
  have h := order_timestamps_once_and_ordered 0
    [(.matchFound, 1), (.walkerAccepts, 2), (.walkerStarts, 3),
     (.walkerCompletes, 4)]
    (by simp [timesChain])
  exact ⟨h.1, h.2.1⟩
